import Mathlib

/-!
Shallow embedding of the Cloudflare-Clist front-end (a React/Cloudflare
Workers file-listing UI over S3-compatible storages) and proofs about it.

The embedding covers:
* `src/app/components/FilePreview.tsx` together with the bundled
  `~/lib/file-utils` module (extension / file-type / MIME / language
  lookup tables and the preview component's branch structure);
* the home route module (`loader`, `FileBrowser`'s navigation and
  request-building handlers).

JavaScript strings are modelled as Lean `String`s; the handful of
JavaScript string primitives the code uses (`toLowerCase`, `split` on a
one-character separator, `trim`) are embedded as executable functions on
the underlying character lists, restricted to the ASCII behaviour that is
relevant here. The home route's `formatBytes` is deliberately not
embedded: its unit index is `Math.floor(Math.log(bytes)/Math.log(1024))`
over IEEE-754 doubles, with `Math.log` only implementation-approximated by
ECMAScript, and near the unit boundaries that computation diverges from
any exact-arithmetic counterpart, so no faithful model of it exists in
this embedding.
-/

/-- Embedding of JavaScript `String.prototype.toLowerCase` on a single
character, for the ASCII letters (the only case-sensitive characters that
occur in the extension tables). All other characters are fixed. -/
def jsToLower (c : Char) : Char :=
  match c with
  | 'A' => 'a' | 'B' => 'b' | 'C' => 'c' | 'D' => 'd' | 'E' => 'e'
  | 'F' => 'f' | 'G' => 'g' | 'H' => 'h' | 'I' => 'i' | 'J' => 'j'
  | 'K' => 'k' | 'L' => 'l' | 'M' => 'm' | 'N' => 'n' | 'O' => 'o'
  | 'P' => 'p' | 'Q' => 'q' | 'R' => 'r' | 'S' => 's' | 'T' => 't'
  | 'U' => 'u' | 'V' => 'v' | 'W' => 'w' | 'X' => 'x' | 'Y' => 'y'
  | 'Z' => 'z'
  | c => c

/-- Helper for `splitOnChar`: prepend a character to the first piece of a
split result (the pieces list is never empty, the `[]` case is padding). -/
def consHead (x : Char) : List (List Char) → List (List Char)
  | [] => [[x]]
  | y :: ys => (x :: y) :: ys

/-- Embedding of JavaScript `String.prototype.split` with a one-character
separator, on character lists: `split('.')` of `"a.b"` is `["a","b"]`, of
`""` is `[""]`, of `"a."` is `["a",""]`. -/
def splitOnChar (c : Char) : List Char → List (List Char)
  | [] => [[]]
  | x :: xs =>
    if x = c then [] :: splitOnChar c xs
    else consHead x (splitOnChar c xs)

/-- Embedding of JavaScript `String.prototype.trim` on character lists:
drop whitespace from both ends. -/
def jsTrimList (l : List Char) : List Char :=
  ((l.dropWhile Char.isWhitespace).reverse.dropWhile Char.isWhitespace).reverse

/-- Embedding of JavaScript `String.prototype.trim`. -/
def jsTrim (s : String) : String :=
  String.mk (jsTrimList s.data)

/- ### `~/lib/file-utils` (bundled with FilePreview.tsx) -/

def VIDEO_EXTENSIONS : List String :=
  ["mp4", "webm", "ogg", "mov", "avi", "mkv", "m4v", "flv", "wmv", "3gp"]

def AUDIO_EXTENSIONS : List String :=
  ["mp3", "wav", "ogg", "flac", "aac", "m4a", "wma", "opus", "webm"]

def IMAGE_EXTENSIONS : List String :=
  ["jpg", "jpeg", "png", "gif", "webp", "svg", "bmp", "ico", "avif"]

def TEXT_EXTENSIONS : List String :=
  ["txt", "log", "md", "markdown", "rst", "csv", "ini", "cfg", "conf"]

def CODE_EXTENSIONS : List String :=
  ["js", "ts", "jsx", "tsx", "json", "html", "css", "scss", "less",
   "py", "java", "c", "cpp", "h", "hpp", "cs", "go", "rs", "rb",
   "php", "sql", "sh", "bash", "zsh", "ps1", "bat", "cmd",
   "xml", "yaml", "yml", "toml", "vue", "svelte", "astro",
   "swift", "kt", "scala", "r", "lua", "pl", "ex", "exs",
   "dockerfile", "makefile", "cmake", "gradle", "env"]

def PDF_EXTENSIONS : List String := ["pdf"]

/-- `getFileExtension`: lowercase the filename, split on `'.'`, and return
the last piece when there are at least two pieces, else the empty string. -/
def getFileExtension (filename : String) : String :=
  let parts := splitOnChar '.' (filename.data.map jsToLower)
  if parts.length > 1 then String.mk (parts.getLastD []) else ""

/-- The lookup on the extension performed by `getFileType`: the extension
lists are consulted in the source's order (video, audio, image, pdf, code,
text), membership playing the role of `Array.prototype.includes`. -/
def fileTypeOfExt (ext : String) : String :=
  if ext ∈ VIDEO_EXTENSIONS then "video"
  else if ext ∈ AUDIO_EXTENSIONS then "audio"
  else if ext ∈ IMAGE_EXTENSIONS then "image"
  else if ext ∈ PDF_EXTENSIONS then "pdf"
  else if ext ∈ CODE_EXTENSIONS then "code"
  else if ext ∈ TEXT_EXTENSIONS then "text"
  else "unknown"

/-- `getFileType` from file-utils. -/
def getFileType (filename : String) : String :=
  fileTypeOfExt (getFileExtension filename)

/-- `isPreviewable` from file-utils: the file type is one of the six
recognised labels. -/
def isPreviewable (filename : String) : Bool :=
  decide (getFileType filename ∈ ["video", "audio", "image", "text", "code", "pdf"])

/-- The `mimeTypes` record of `getMimeType`, as an association list. -/
def mimeTypes : List (String × String) :=
  [("mp4", "video/mp4"), ("webm", "video/webm"), ("ogg", "video/ogg"),
   ("mov", "video/quicktime"), ("avi", "video/x-msvideo"),
   ("mkv", "video/x-matroska"), ("m4v", "video/x-m4v"),
   ("mp3", "audio/mpeg"), ("wav", "audio/wav"), ("flac", "audio/flac"),
   ("aac", "audio/aac"), ("m4a", "audio/mp4"), ("opus", "audio/opus"),
   ("jpg", "image/jpeg"), ("jpeg", "image/jpeg"), ("png", "image/png"),
   ("gif", "image/gif"), ("webp", "image/webp"), ("svg", "image/svg+xml"),
   ("bmp", "image/bmp"), ("ico", "image/x-icon"), ("avif", "image/avif"),
   ("txt", "text/plain"), ("md", "text/markdown"), ("csv", "text/csv"),
   ("js", "text/javascript"), ("ts", "text/typescript"),
   ("json", "application/json"), ("html", "text/html"), ("css", "text/css"),
   ("xml", "text/xml"), ("pdf", "application/pdf")]

/-- `getMimeType` from file-utils: record lookup on the extension with
default `application/octet-stream`. -/
def getMimeType (filename : String) : String :=
  (mimeTypes.lookup (getFileExtension filename)).getD "application/octet-stream"

/-- The `languages` record of `getCodeLanguage`, as an association list. -/
def codeLanguages : List (String × String) :=
  [("js", "javascript"), ("jsx", "javascript"), ("ts", "typescript"),
   ("tsx", "typescript"), ("py", "python"), ("rb", "ruby"),
   ("java", "java"), ("c", "c"), ("cpp", "cpp"), ("h", "c"),
   ("hpp", "cpp"), ("cs", "csharp"), ("go", "go"), ("rs", "rust"),
   ("php", "php"), ("sql", "sql"), ("sh", "bash"), ("bash", "bash"),
   ("zsh", "bash"), ("ps1", "powershell"), ("bat", "batch"),
   ("cmd", "batch"), ("html", "html"), ("css", "css"), ("scss", "scss"),
   ("less", "less"), ("json", "json"), ("xml", "xml"), ("yaml", "yaml"),
   ("yml", "yaml"), ("toml", "toml"), ("md", "markdown"),
   ("markdown", "markdown"), ("vue", "vue"), ("svelte", "svelte"),
   ("swift", "swift"), ("kt", "kotlin"), ("scala", "scala"), ("r", "r"),
   ("lua", "lua"), ("pl", "perl"), ("ex", "elixir"), ("exs", "elixir")]

/-- `getCodeLanguage` from file-utils: record lookup on the extension with
default `plaintext`. -/
def getCodeLanguage (filename : String) : String :=
  (codeLanguages.lookup (getFileExtension filename)).getD "plaintext"

/- ### The preview modal's content branch (FilePreview.tsx, lines 100-118) -/

/-- The widgets the `FilePreview` component can mount in its content area,
plus the "cannot preview this file type" fallback block. -/
inductive PreviewNode where
  | videoPlayer
  | audioPlayer
  | imageViewer
  | textViewer
  | pdfViewer
  | fallback
deriving DecidableEq

/-- The children rendered by `FilePreview`'s content area: one conditional
per `fileType === ...` guard, in the JSX order. -/
def previewContent (fileName : String) : List PreviewNode :=
  let fileType := getFileType fileName
  (if fileType = "video" then [PreviewNode.videoPlayer] else []) ++
  (if fileType = "audio" then [PreviewNode.audioPlayer] else []) ++
  (if fileType = "image" then [PreviewNode.imageViewer] else []) ++
  (if fileType = "text" ∨ fileType = "code" then [PreviewNode.textViewer] else []) ++
  (if fileType = "pdf" then [PreviewNode.pdfViewer] else []) ++
  (if fileType = "unknown" then [PreviewNode.fallback] else [])

/- ### Helper lemmas about the string primitives -/

theorem jsToLower_eq_dot {c : Char} (h : jsToLower c = '.') : c = '.' := by
  unfold jsToLower at h
  split at h <;> simp_all

theorem splitOnChar_of_not_mem (c : Char) (l : List Char) (h : c ∉ l) :
    splitOnChar c l = [l] := by
  induction l with
  | nil => rfl
  | cons x xs ih =>
    simp only [List.mem_cons, not_or] at h
    obtain ⟨hx, hxs⟩ := h
    simp only [splitOnChar, if_neg (fun he : x = c => hx he.symm), ih hxs, consHead]

theorem splitOnChar_last (c : Char) (suffix : List Char) (hs : c ∉ suffix) :
    ∀ pre : List Char,
      (splitOnChar c (pre ++ c :: suffix)).getLast? = some suffix ∧
      1 < (splitOnChar c (pre ++ c :: suffix)).length := by
  intro pre
  induction pre with
  | nil =>
    simp only [List.nil_append, splitOnChar, if_pos rfl,
      splitOnChar_of_not_mem c suffix hs]
    exact ⟨rfl, by simp⟩
  | cons x pre ih =>
    obtain ⟨ih1, ih2⟩ := ih
    have hsplit : splitOnChar c ((x :: pre) ++ c :: suffix)
        = if x = c then [] :: splitOnChar c (pre ++ c :: suffix)
          else consHead x (splitOnChar c (pre ++ c :: suffix)) := rfl
    rcases hr : splitOnChar c (pre ++ c :: suffix) with _ | ⟨y, ys⟩
    · rw [hr] at ih2; simp at ih2
    · rw [hr] at ih1 ih2 hsplit
      by_cases hx : x = c
      · rw [hsplit, if_pos hx]
        refine ⟨?_, by simp⟩
        rw [List.getLast?_cons_cons]
        exact ih1
      · rw [hsplit, if_neg hx]
        rcases ys with _ | ⟨z, zs⟩
        · simp at ih2
        · refine ⟨?_, by simp [consHead]⟩
          show ((x :: y) :: z :: zs).getLast? = some suffix
          rw [List.getLast?_cons_cons]
          rw [List.getLast?_cons_cons] at ih1
          exact ih1

theorem dot_not_mem_map_jsToLower {l : List Char} (h : ('.' : Char) ∉ l) :
    ('.' : Char) ∉ l.map jsToLower := by
  intro hmem
  obtain ⟨c, hc, hlow⟩ := List.mem_map.mp hmem
  exact h (jsToLower_eq_dot hlow ▸ hc)

/-- Every value `fileTypeOfExt` can return. -/
theorem fileTypeOfExt_mem (ext : String) :
    fileTypeOfExt ext ∈
      ["video", "audio", "image", "text", "code", "pdf", "unknown"] := by
  unfold fileTypeOfExt
  split_ifs <;> simp

/- ### Claims about the file-type utilities -/

/-- C3: for every filename, `getFileType` returns one of the seven labels
`video`, `audio`, `image`, `text`, `code`, `pdf`, `unknown`; it is computed
from the lowercase final extension by consulting the static extension lists
in the fixed order video, audio, image, pdf, code, text, returning
`unknown` when no list contains the extension, and that order resolves the
extensions `webm` and `ogg` (present in both the video and audio lists) to
`video`. -/
theorem getFileType_labels :
    (∀ filename : String,
      getFileType filename ∈
        ["video", "audio", "image", "text", "code", "pdf", "unknown"]) ∧
    (∀ filename : String,
      getFileExtension filename ∉ VIDEO_EXTENSIONS →
      getFileExtension filename ∉ AUDIO_EXTENSIONS →
      getFileExtension filename ∉ IMAGE_EXTENSIONS →
      getFileExtension filename ∉ PDF_EXTENSIONS →
      getFileExtension filename ∉ CODE_EXTENSIONS →
      getFileExtension filename ∉ TEXT_EXTENSIONS →
      getFileType filename = "unknown") ∧
    "webm" ∈ VIDEO_EXTENSIONS ∧ "webm" ∈ AUDIO_EXTENSIONS ∧
    "ogg" ∈ VIDEO_EXTENSIONS ∧ "ogg" ∈ AUDIO_EXTENSIONS ∧
    getFileType "a.webm" = "video" ∧ getFileType "a.ogg" = "video" := by
  refine ⟨fun filename => fileTypeOfExt_mem _, ?_, by decide⟩
  intro filename h1 h2 h3 h4 h5 h6
  unfold getFileType fileTypeOfExt
  simp [h1, h2, h3, h4, h5, h6]

/-- Witness for C3 at concrete inputs. -/
theorem getFileType_labels_witness :
    getFileType "data.xyz" = "unknown" ∧
    getFileType "clip.mp3" ∈
      ["video", "audio", "image", "text", "code", "pdf", "unknown"] :=
  ⟨getFileType_labels.2.1 "data.xyz" (by decide) (by decide) (by decide)
      (by decide) (by decide) (by decide),
   getFileType_labels.1 "clip.mp3"⟩

/-- C4: the three classifiers factor through `getFileExtension` — any two
filenames with the same extension receive the same file type, MIME type
and code language. -/
theorem fileType_factors_through_extension (f g : String)
    (h : getFileExtension f = getFileExtension g) :
    getFileType f = getFileType g ∧
    getMimeType f = getMimeType g ∧
    getCodeLanguage f = getCodeLanguage g := by
  unfold getFileType getMimeType getCodeLanguage
  rw [h]
  exact ⟨rfl, rfl, rfl⟩

/-- Witness for C4 at a concrete pair of filenames sharing the extension
`txt` up to case. -/
theorem fileType_factors_through_extension_witness :
    getFileExtension "A.TXT" = getFileExtension "b.txt" ∧
    (getFileType "A.TXT" = getFileType "b.txt" ∧
     getMimeType "A.TXT" = getMimeType "b.txt" ∧
     getCodeLanguage "A.TXT" = getCodeLanguage "b.txt") :=
  ⟨by decide, fileType_factors_through_extension "A.TXT" "b.txt" (by decide)⟩

/-- C8: `isPreviewable` holds exactly for filenames whose type is not
`unknown`, and the `FilePreview` content area mounts the
"cannot preview" fallback exactly when the type is `unknown`. -/
theorem isPreviewable_iff_known (filename : String) :
    (isPreviewable filename = true ↔ getFileType filename ≠ "unknown") ∧
    (PreviewNode.fallback ∈ previewContent filename ↔
      getFileType filename = "unknown") := by
  have h : getFileType filename ∈
      ["video", "audio", "image", "text", "code", "pdf", "unknown"] :=
    fileTypeOfExt_mem (getFileExtension filename)
  simp only [List.mem_cons, List.not_mem_nil, or_false] at h
  rcases h with h | h | h | h | h | h | h <;>
    simp [isPreviewable, previewContent, h]

/-- C9: the extension of a dotless filename is empty, so such names are
classified `unknown` even though `dockerfile` and `makefile` occur in
`CODE_EXTENSIONS`; when a dot is present the extension is the lowercased
part after the last dot, so only names of the form `x.dockerfile` match
those entries. -/
theorem getFileExtension_no_dot :
    (∀ filename : String, ('.' : Char) ∉ filename.data →
      getFileExtension filename = "" ∧ getFileType filename = "unknown") ∧
    (∀ (filename : String) (pre suffix : List Char),
      filename.data.map jsToLower = pre ++ '.' :: suffix →
      ('.' : Char) ∉ suffix →
      getFileExtension filename = String.mk suffix) ∧
    "dockerfile" ∈ CODE_EXTENSIONS ∧ "makefile" ∈ CODE_EXTENSIONS ∧
    getFileType "dockerfile" = "unknown" ∧
    getFileType "makefile" = "unknown" ∧
    getFileType "x.dockerfile" = "code" ∧
    getFileType "x.makefile" = "code" := by
  refine ⟨?_, ?_, by decide⟩
  · intro filename h
    have h2 : ('.' : Char) ∉ filename.data.map jsToLower :=
      dot_not_mem_map_jsToLower h
    have h3 : getFileExtension filename = "" := by
      unfold getFileExtension
      rw [splitOnChar_of_not_mem _ _ h2]
      simp
    refine ⟨h3, ?_⟩
    unfold getFileType
    rw [h3]
    decide
  · intro filename pre suffix hmap hs
    obtain ⟨hlast, hlen⟩ := splitOnChar_last '.' suffix hs pre
    unfold getFileExtension
    simp only [hmap]
    rw [if_pos hlen]
    congr 1
    simp [List.getLastD_eq_getLast?, hlast]

/-- Witness for C9 at the concrete inputs `README` and `Report.TXT`. -/
theorem getFileExtension_no_dot_witness :
    (('.' : Char) ∉ "README".data) ∧
    (getFileExtension "README" = "" ∧ getFileType "README" = "unknown") ∧
    "Report.TXT".data.map jsToLower = "report".data ++ '.' :: "txt".data ∧
    getFileExtension "Report.TXT" = String.mk "txt".data :=
  ⟨by decide, getFileExtension_no_dot.1 "README" (by decide), by decide,
   getFileExtension_no_dot.2.1 "Report.TXT" "report".data "txt".data
     (by decide) (by decide)⟩

/- ### Home route module: storage data model and the route loader -/

/-- Modelled from the spec: a row of the storage table managed by
`~/lib/storage` (not among the inspected files). Per the glossary, a
storage is "an administrator-configured S3-compatible bucket endpoint with
credentials, exposed to users as a named root"; the fields are the ones the
loader and the storage form read, plus the secret credential. -/
structure StorageRecord where
  id : Nat
  name : String
  endpoint : String
  region : String
  accessKeyId : String
  secretAccessKey : String
  bucket : String
  basePath : String
  isPublic : Bool
deriving DecidableEq

/-- Modelled from the spec: the D1 database state the loader consults — the
configured storage rows plus the authentication state (admin credentials
and sessions, an external collaborator kept abstract here). -/
structure Database where
  storages : List StorageRecord
  authState : String
deriving DecidableEq

/-- Modelled from the spec: `getAllStorages` of `~/lib/storage` returns
every configured storage row. -/
def getAllStorages (db : Database) : List StorageRecord :=
  db.storages

/-- Modelled from the spec: `getPublicStorages` of `~/lib/storage` returns
the storages marked public ("允许游客浏览下载"). -/
def getPublicStorages (db : Database) : List StorageRecord :=
  db.storages.filter (fun s => s.isPublic)

/-- The per-storage object the loader sends to the client (the `.map` body
at lines 38-47 of the home route): every field of the row except
`secretAccessKey`. -/
structure ClientStorage where
  id : Nat
  name : String
  endpoint : String
  region : String
  accessKeyId : String
  bucket : String
  basePath : String
  isPublic : Bool
deriving DecidableEq

/-- The loader's projection of a storage row to its client shape. -/
def projectStorage (s : StorageRecord) : ClientStorage :=
  { id := s.id, name := s.name, endpoint := s.endpoint, region := s.region,
    accessKeyId := s.accessKeyId, bucket := s.bucket, basePath := s.basePath,
    isPublic := s.isPublic }

/-- The loader's return value. -/
structure LoaderData where
  isAdmin : Bool
  siteTitle : String
  siteAnnouncement : String
  storages : List ClientStorage
deriving DecidableEq

/-- The Cloudflare environment bindings the loader reads; `none` models an
unbound variable (and, for `DB`, a missing D1 binding). -/
structure CloudflareEnv where
  DB : Option Database
  SITE_TITLE : Option String
  SITE_ANNOUNCEMENT : Option String

/-- JavaScript `a || d` for an optional string `a`: the default is used
when the binding is absent or empty (both are falsy). -/
def jsOrDefault (v : Option String) (d : String) : String :=
  match v with
  | none => d
  | some s => if s = "" then d else s

/-- The home route `loader`. `requireAuth` of `~/lib/auth` is an external
collaborator (authentication mechanics are a spec non-goal), so it enters
as a parameter `auth` deciding admin status from the request and the
database's auth state; `initDatabase` is schema DDL with no bearing on the
returned data and is omitted. -/
def loader (auth : String → String → Bool) (request : String)
    (env : CloudflareEnv) : LoaderData :=
  let siteTitle := jsOrDefault env.SITE_TITLE "CList"
  let siteAnnouncement := jsOrDefault env.SITE_ANNOUNCEMENT ""
  match env.DB with
  | none =>
    { isAdmin := false, siteTitle := siteTitle,
      siteAnnouncement := siteAnnouncement, storages := [] }
  | some db =>
    let isAdmin := auth request db.authState
    let storages := if isAdmin then getAllStorages db else getPublicStorages db
    { isAdmin := isAdmin, siteTitle := siteTitle,
      siteAnnouncement := siteAnnouncement,
      storages := storages.map projectStorage }

/- ### Home route module: FileBrowser navigation and request URLs -/

/-- `goUp` of `FileBrowser`: split the path on `/`, keep the truthy
(non-empty) segments, `pop` the last one, and rejoin with `/`. -/
def goUp (path : String) : String :=
  let parts := ((splitOnChar '/' path.data).map String.mk).filter
    (fun s => s ≠ "")
  String.intercalate "/" parts.dropLast

/-- The `breadcrumbs` value of `FileBrowser`: the truthy segments of the
current path, or `[]` for the empty (root) path. -/
def breadcrumbs (path : String) : List String :=
  if path = "" then []
  else ((splitOnChar '/' path.data).map String.mk).filter (fun s => s ≠ "")

/-- The non-empty `/`-separated segments of a path (the claim's reading of
the breadcrumb/goUp computation). -/
def pathSegments (path : String) : List String :=
  ((splitOnChar '/' path.data).map String.mk).filter (fun s => s ≠ "")

/-- URL of `loadFiles`. -/
def loadFilesURL (storageId : Nat) (path : String) : String :=
  "/api/files/" ++ toString storageId ++ "/" ++ path ++ "?action=list"

/-- URL opened by `downloadFile` (also the `fileUrl` of `FilePreview`). -/
def downloadFileURL (storageId : Nat) (key : String) : String :=
  "/api/files/" ++ toString storageId ++ "/" ++ key ++ "?action=download"

/-- URL of the `deleteFile` DELETE request. -/
def deleteFileURL (storageId : Nat) (key : String) : String :=
  "/api/files/" ++ toString storageId ++ "/" ++ key

/-- URL of the `deleteFolder` DELETE request. -/
def deleteFolderURL (storageId : Nat) (key : String) : String :=
  "/api/files/" ++ toString storageId ++ "/" ++ key ++ "?action=rmdir"

/-- URL of the `handleUpload` PUT request. -/
def uploadFileURL (storageId : Nat) (uploadPath : String) : String :=
  "/api/files/" ++ toString storageId ++ "/" ++ uploadPath

/-- URL of the `handleCreateFolder` POST request. -/
def createFolderURL (storageId : Nat) (folderPath : String) : String :=
  "/api/files/" ++ toString storageId ++ "/" ++ folderPath ++ "?action=mkdir"

/-- URL of the `handleOfflineDownload` POST request. -/
def offlineFetchURL (storageId : Nat) (path : String) : String :=
  "/api/files/" ++ toString storageId ++ "/" ++ path ++ "?action=fetch"

/-- URL used by `LoginModal`, `StorageModal`, `refreshStorages` and
`handleLogout`. -/
def storagesURL : String := "/api/storages"

/-- URL of the `handleDeleteStorage` DELETE request. -/
def deleteStorageURL (storageId : Nat) : String :=
  "/api/storages?id=" ++ toString storageId

/-- Every URL template a fetch, XHR or `window.open` of the inspected
client code can target, at a given storage id, path and object key. -/
def clientRequestURLs (storageId : Nat) (path key : String) : List String :=
  [storagesURL, deleteStorageURL storageId,
   loadFilesURL storageId path, downloadFileURL storageId key,
   deleteFileURL storageId key, deleteFolderURL storageId key,
   uploadFileURL storageId path, createFolderURL storageId path,
   offlineFetchURL storageId path]

/- ### Home route module: the offline-download trigger -/

/-- The request `handleOfflineDownload` issues: the target URL, the HTTP
method, and the JSON body's `url` and optional `filename` fields. -/
structure OfflineFetchRequest where
  url : String
  method : String
  bodyUrl : String
  bodyFilename : Option String
deriving DecidableEq

/-- `handleOfflineDownload` up to the `fetch` call: when the URL input
trims to the empty string the handler returns before touching any state
and issues nothing (`none`); otherwise it issues one POST carrying the
trimmed URL and, unless it is empty (falsy), the trimmed filename. -/
def handleOfflineDownload (storageId : Nat)
    (path offlineUrl offlineFilename : String) : Option OfflineFetchRequest :=
  if jsTrim offlineUrl = "" then none
  else some
    { url := offlineFetchURL storageId path,
      method := "POST",
      bodyUrl := jsTrim offlineUrl,
      bodyFilename :=
        if jsTrim offlineFilename = "" then none
        else some (jsTrim offlineFilename) }

/- ### Claims about the home route -/

/-- C1: whenever the D1 database is bound, the loader's admin flag is
exactly what `requireAuth` reports, and the returned storage list is the
projection of `getAllStorages` exactly when that report is true, of
`getPublicStorages` otherwise. -/
theorem loader_admin_gated (auth : String → String → Bool) (request : String)
    (env : CloudflareEnv) (db : Database) (hdb : env.DB = some db) :
    (loader auth request env).isAdmin = auth request db.authState ∧
    (auth request db.authState = true →
      (loader auth request env).storages =
        (getAllStorages db).map projectStorage) ∧
    (auth request db.authState = false →
      (loader auth request env).storages =
        (getPublicStorages db).map projectStorage) := by
  unfold loader
  rw [hdb]
  refine ⟨rfl, fun h => ?_, fun h => ?_⟩ <;> simp [h]

/-- Witness data: a request-independent admin verdict. -/
def demoAuth : String → String → Bool := fun _ _ => true

/-- Witness data: a database with one private storage. -/
def demoDB : Database :=
  { storages := [{ id := 1, name := "r2", endpoint := "https://acc.r2.dev",
                   region := "auto", accessKeyId := "AK",
                   secretAccessKey := "SK", bucket := "b", basePath := "",
                   isPublic := false }],
    authState := "admin-session" }

/-- Witness data: `demoDB` with a different secret on its storage row. -/
def demoDB2 : Database :=
  { storages := [{ id := 1, name := "r2", endpoint := "https://acc.r2.dev",
                   region := "auto", accessKeyId := "AK",
                   secretAccessKey := "ROTATED", bucket := "b", basePath := "",
                   isPublic := false }],
    authState := "admin-session" }

/-- Witness data: an environment binding `demoDB`. -/
def demoEnv : CloudflareEnv :=
  { DB := some demoDB, SITE_TITLE := none, SITE_ANNOUNCEMENT := none }

/-- Witness for C1 at a concrete admin session. -/
theorem loader_admin_gated_witness :
    demoEnv.DB = some demoDB ∧
    demoAuth "cookie" demoDB.authState = true ∧
    (loader demoAuth "cookie" demoEnv).storages =
      (getAllStorages demoDB).map projectStorage :=
  ⟨rfl, rfl, (loader_admin_gated demoAuth "cookie" demoEnv demoDB rfl).2.1 rfl⟩

/-- A storage row with its secret credential erased; two rows that differ
only in the secret are identified by this map. -/
def scrubSecret (s : StorageRecord) : StorageRecord :=
  { s with secretAccessKey := "" }

theorem map_projectStorage_of_scrub {l1 l2 : List StorageRecord}
    (h : l1.map scrubSecret = l2.map scrubSecret) :
    l1.map projectStorage = l2.map projectStorage ∧
    (l1.filter (fun s => s.isPublic)).map projectStorage =
      (l2.filter (fun s => s.isPublic)).map projectStorage := by
  induction l1 generalizing l2 with
  | nil =>
    cases l2 with
    | nil => exact ⟨rfl, rfl⟩
    | cons y ys => simp at h
  | cons x xs ih =>
    cases l2 with
    | nil => simp at h
    | cons y ys =>
      simp only [List.map_cons, List.cons.injEq] at h
      obtain ⟨hxy, hrest⟩ := h
      have hproj : projectStorage x = projectStorage y := by
        have h2 := congrArg projectStorage hxy
        simpa [projectStorage, scrubSecret] using h2
      have hpub : x.isPublic = y.isPublic := by
        have h2 := congrArg StorageRecord.isPublic hxy
        simpa [scrubSecret] using h2
      obtain ⟨ih1, ih2⟩ := ih hrest
      refine ⟨by simp [hproj, ih1], ?_⟩
      by_cases hp : x.isPublic = true
      · have hp' : y.isPublic = true := hpub ▸ hp
        simp [List.filter_cons, hp, hp', hproj, ih2]
      · have hp' : ¬ y.isPublic = true := hpub ▸ hp
        simp [List.filter_cons, hp, hp', ih2]

/-- C2: the loader's output does not depend on any storage's
`secretAccessKey` — for two database states with the same auth state whose
storage rows agree after erasing the secret, the loader returns identical
data (the projected objects carry id, name, endpoint, region, accessKeyId,
bucket, basePath and isPublic only). -/
theorem loader_secret_independent (auth : String → String → Bool)
    (request : String) (t a : Option String) (db1 db2 : Database)
    (hauth : db1.authState = db2.authState)
    (hscrub : db1.storages.map scrubSecret = db2.storages.map scrubSecret) :
    loader auth request ⟨some db1, t, a⟩ = loader auth request ⟨some db2, t, a⟩ := by
  obtain ⟨hall, hpub⟩ := map_projectStorage_of_scrub hscrub
  have hred : ∀ db : Database, loader auth request ⟨some db, t, a⟩ =
      { isAdmin := auth request db.authState,
        siteTitle := jsOrDefault t "CList",
        siteAnnouncement := jsOrDefault a "",
        storages := (if auth request db.authState then getAllStorages db
          else getPublicStorages db).map projectStorage } := fun db => rfl
  rw [hred db1, hred db2, hauth]
  by_cases hA : auth request db2.authState = true
  · simp [hA, getAllStorages, hall]
  · simp [hA, getPublicStorages, hpub]

/-- Witness for C2: rotating the stored secret leaves the loader output
unchanged. -/
theorem loader_secret_independent_witness :
    demoDB.authState = demoDB2.authState ∧
    demoDB.storages.map scrubSecret = demoDB2.storages.map scrubSecret ∧
    loader demoAuth "cookie" ⟨some demoDB, none, none⟩ =
      loader demoAuth "cookie" ⟨some demoDB2, none, none⟩ :=
  ⟨rfl, rfl,
   loader_secret_independent demoAuth "cookie" none none demoDB demoDB2 rfl rfl⟩

/-- C5: every URL the inspected client code requests lies in one of the
two endpoint families: it extends `/api/storages` or extends
`/api/files/{storageId}/`. -/
theorem client_urls_api_families (storageId : Nat) (path key : String)
    (u : String) (hu : u ∈ clientRequestURLs storageId path key) :
    (∃ rest, u = "/api/storages" ++ rest) ∨
    (∃ rest, u = "/api/files/" ++ toString storageId ++ "/" ++ rest) := by
  simp only [clientRequestURLs, List.mem_cons, List.not_mem_nil, or_false] at hu
  rcases hu with h | h | h | h | h | h | h | h | h <;> subst h
  · exact Or.inl ⟨"", rfl⟩
  · exact Or.inl ⟨"?id=" ++ toString storageId, by
      unfold deleteStorageURL
      rw [← String.append_assoc]
      rfl⟩
  · exact Or.inr ⟨path ++ "?action=list", by
      unfold loadFilesURL
      simp [String.append_assoc]⟩
  · exact Or.inr ⟨key ++ "?action=download", by
      unfold downloadFileURL
      simp [String.append_assoc]⟩
  · exact Or.inr ⟨key, by unfold deleteFileURL; simp [String.append_assoc]⟩
  · exact Or.inr ⟨key ++ "?action=rmdir", by
      unfold deleteFolderURL
      simp [String.append_assoc]⟩
  · exact Or.inr ⟨path, by unfold uploadFileURL; simp [String.append_assoc]⟩
  · exact Or.inr ⟨path ++ "?action=mkdir", by
      unfold createFolderURL
      simp [String.append_assoc]⟩
  · exact Or.inr ⟨path ++ "?action=fetch", by
      unfold offlineFetchURL
      simp [String.append_assoc]⟩

/-- Witness for C5 at the listing URL of storage 7. -/
theorem client_urls_api_families_witness :
    loadFilesURL 7 "a/b" ∈ clientRequestURLs 7 "a/b" "c.txt" ∧
    ((∃ rest, loadFilesURL 7 "a/b" = "/api/storages" ++ rest) ∨
     (∃ rest, loadFilesURL 7 "a/b" = "/api/files/" ++ toString 7 ++ "/" ++ rest)) :=
  ⟨by simp [clientRequestURLs],
   client_urls_api_families 7 "a/b" "c.txt" _ (by simp [clientRequestURLs])⟩

/-- C6: the offline-download trigger issues nothing when the URL input
trims to the empty string, and otherwise issues exactly one POST to the
active storage path's `?action=fetch` endpoint whose body carries the
trimmed URL and the trimmed filename (omitted when the latter is blank). -/
theorem handleOfflineDownload_spec (storageId : Nat)
    (path offlineUrl offlineFilename : String) :
    (handleOfflineDownload storageId path offlineUrl offlineFilename = none ↔
      jsTrim offlineUrl = "") ∧
    (jsTrim offlineUrl ≠ "" →
      handleOfflineDownload storageId path offlineUrl offlineFilename =
        some { url := offlineFetchURL storageId path, method := "POST",
               bodyUrl := jsTrim offlineUrl,
               bodyFilename := if jsTrim offlineFilename = "" then none
                 else some (jsTrim offlineFilename) }) := by
  unfold handleOfflineDownload
  by_cases h : jsTrim offlineUrl = "" <;> simp [h]

/-- Witness for C6 at a concrete URL with surrounding whitespace and a
blank filename field. -/
theorem handleOfflineDownload_spec_witness :
    jsTrim "  https://example.com/file.zip  " ≠ "" ∧
    handleOfflineDownload 3 "docs" "  https://example.com/file.zip  " " " =
      some { url := offlineFetchURL 3 "docs", method := "POST",
             bodyUrl := "https://example.com/file.zip",
             bodyFilename := none } :=
  ⟨by decide, by
    rw [(handleOfflineDownload_spec 3 "docs" "  https://example.com/file.zip  "
      " ").2 (by decide)]
    decide⟩

/-- C7: `goUp` rewrites the path to its non-empty `/`-separated segments
with the last removed, rejoined by `/` (so the empty root path stays
empty), and the rendered breadcrumbs are exactly the non-empty segments of
the current path. -/
theorem goUp_breadcrumbs_spec (path : String) :
    goUp path = String.intercalate "/" (pathSegments path).dropLast ∧
    breadcrumbs path = pathSegments path ∧
    goUp "" = "" := by
  refine ⟨rfl, ?_, by decide⟩
  unfold breadcrumbs pathSegments
  by_cases h : path = ""
  · subst h; decide
  · simp [h]
